import Mathlib

/-!
Verification of the server-side query engine and mutation service of the
progressive-complexity demo (an editable, paginated, searchable, sortable
product table).

Shallow embedding notes:
* JavaScript numbers are modelled as rationals (`ℚ`); a possibly-NaN number
  (the result of `Number(...)` on user input) is modelled as `Option ℚ`,
  with `none` standing for NaN.
* `src/src/lib/store.ts` mutates a module-level array `db`; here the store
  is threaded explicitly as a `Store` value, and every operation that the
  source can run against the store returns the store it leaves behind.
* `Array.prototype.sort` with the comparator of `getProducts` is modelled
  as a stable insertion sort over the same comparator.  For a fixed sort
  field all compared values are of one runtime type (number or string), so
  the dynamic comparator is split into a number-keyed and a string-keyed
  instance of one generic comparator.
-/

set_option allowUnsafeReducibility true
attribute [semireducible] Rat.mul Rat.add Rat.div Rat.inv Rat.sub Rat.neg Rat.ofScientific

namespace PC

/-- JS `Math.round(q * 100) / 100`, also `+(q.toFixed(2))`: round to two
decimal places, ties upward. -/
def round2 (q : ℚ) : ℚ := (⌊q * 100 + 1 / 2⌋ : ℚ) / 100

/-- JS `a.includes(b)`: substring containment test. -/
def jsIncludes (a b : String) : Bool := decide (b.data <:+: a.data)

/-- JS `s.toLowerCase()` on the ASCII strings this system stores,
character by character. -/
def jsToLower (s : String) : String := ⟨s.data.map Char.toLower⟩

/-- Entity of the record store: `Product` from `src/src/types/index.ts`.
`description`, `createdAt` and `updatedAt` are optional in the source type
(and may therefore be `undefined` when used as sort keys); dates are
modelled as rational timestamps. -/
structure Product where
  id : ℚ
  name : String
  price : ℚ
  quantity : ℚ
  category : String
  description : Option String
  createdAt : Option ℚ
  updatedAt : Option ℚ
deriving DecidableEq

/-- The in-memory record store: the module-level `db` array of
`src/src/lib/store.ts`. -/
structure Store where
  db : List Product
deriving DecidableEq

/-- Sort direction, `"asc" | "desc"`. -/
inductive SortDir
  | asc
  | desc
deriving DecidableEq

/-- Sort/search field: `keyof Product | "subtotal"` (`subtotal` is the
computed pseudo-field of `getProducts`; it is never a stored field). -/
inductive SortField
  | id
  | name
  | price
  | quantity
  | category
  | description
  | createdAt
  | updatedAt
  | subtotal
deriving DecidableEq

/-- Whether a sort field carries string values at runtime. -/
def isStrField : SortField → Bool
  | .name => true
  | .category => true
  | .description => true
  | _ => false

/-- The numeric sort-key value `aVal` extracted in the comparator of
`getProducts` (`store.ts` lines 80-86): `subtotal` is computed as
`price * quantity`, other fields are read off the entity, `none` stands
for `undefined`. -/
def numKey : SortField → Product → Option ℚ
  | .id, p => some p.id
  | .price, p => some p.price
  | .quantity, p => some p.quantity
  | .subtotal, p => some (p.price * p.quantity)
  | .createdAt, p => p.createdAt
  | .updatedAt, p => p.updatedAt
  | _, _ => none

/-- The string sort-key value extracted in the comparator of
`getProducts` for string-valued fields. -/
def strKey : SortField → Product → Option String
  | .name, p => some p.name
  | .category, p => some p.category
  | .description, p => p.description
  | _, _ => none

/-- The comparator body of `getProducts` (`store.ts` lines 88-95), acting
on the two extracted key values: both `undefined` compare equal;
`undefined` against a defined value returns `-1`/`1` depending on the
direction; two defined values compare by `<`/`>` with the direction
flipping the sign. -/
def cmpVals {κ : Type} [LinearOrder κ] (dir : SortDir) (a b : Option κ) : ℤ :=
  match a, b with
  | none, none => 0
  | none, some _ => if dir = .asc then -1 else 1
  | some _, none => if dir = .asc then 1 else -1
  | some x, some y =>
    if x < y then (if dir = .asc then -1 else 1)
    else if y < x then (if dir = .asc then 1 else -1)
    else 0

/-- The "sorts no later than" relation induced by the comparator: JS
`sort` places `a` no later than `b` exactly when the (consistent)
comparator is `≤ 0` on `(a, b)`. -/
def keyLe {κ : Type} [LinearOrder κ] (dir : SortDir) (key : Product → Option κ)
    (a b : Product) : Prop :=
  cmpVals dir (key a) (key b) ≤ 0

instance {κ : Type} [LinearOrder κ] (dir : SortDir) (key : Product → Option κ) :
    DecidableRel (keyLe dir key) :=
  fun _ _ => inferInstanceAs (Decidable (_ ≤ _))

/-- `rows.sort(comparator)` of `getProducts`: a stable sort by the
comparator, dispatched on the runtime type of the sort field's values. -/
def sortRows (dir : SortDir) (f : SortField) (l : List Product) : List Product :=
  if isStrField f then List.insertionSort (keyLe dir (strKey f)) l
  else List.insertionSort (keyLe dir (numKey f)) l

/-- The filter predicate of `getProducts` (`store.ts` lines 71-75): the
row's `name` — the search field parameter is not consulted for the value —
lower-cased, must contain the lower-cased search term. -/
def nameMatches (term : String) (p : Product) : Bool :=
  jsIncludes (jsToLower p.name) (jsToLower term)

/-- The filtering stage of `getProducts`: the guard
`if (searchField && searchTerm)` runs the filter only when a search field
is present and the term is a non-empty string (JS truthiness). -/
def filterRows (searchField : Option SortField) (searchTerm : Option String)
    (rows : List Product) : List Product :=
  match searchField, searchTerm with
  | some _, some t => if t = "" then rows else rows.filter (nameMatches t)
  | _, _ => rows

/-- Parameters of `getProducts` (`GetProductsParams`). -/
structure GetProductsParams where
  page : ℕ
  pageSize : ℕ
  sort : SortField := .id
  sortDir : SortDir := .asc
  searchField : Option SortField := none
  searchTerm : Option String := none
deriving DecidableEq

/-- Result of `getProducts` (`GetProductsResult`). -/
structure GetProductsResult where
  data : List Product
  total : ℕ
deriving DecidableEq

/-- `getProducts` of `src/src/lib/store.ts` (lines 61-101): copy the
store, filter, sort, then return the page slice
`rows.slice((page-1)*pageSize, (page-1)*pageSize + pageSize)` together
with the full filtered count. -/
def getProducts (params : GetProductsParams) (s : Store) : GetProductsResult :=
  let rows := filterRows params.searchField params.searchTerm s.db
  let sorted := sortRows params.sortDir params.sort rows
  let start := (params.page - 1) * params.pageSize
  { data := (sorted.drop start).take params.pageSize
    total := sorted.length }

/-- `ProductTotals` of `src/src/types/index.ts`. -/
structure ProductTotals where
  totalPrice : ℚ
  totalQuantity : ℚ
  grandTotal : ℚ
  averagePrice : ℚ
  productCount : ℕ
deriving DecidableEq

/-- `getTotals` of `src/src/lib/store.ts` (lines 103-119): reduce sums
over the given rows; monetary outputs pass through `toFixed(2)`, the
average divides the unrounded price sum by the row count. -/
def getTotals (rows : List Product) : ProductTotals :=
  let totalQuantity : ℚ := List.foldl (fun sum p => sum + p.quantity) 0 rows
  let grandTotal : ℚ := List.foldl (fun sum p => sum + p.quantity * p.price) 0 rows
  let totalPrice : ℚ := List.foldl (fun sum p => sum + p.price) 0 rows
  let averagePrice : ℚ := if 0 < rows.length then totalPrice / rows.length else 0
  { totalPrice := round2 totalPrice
    totalQuantity := totalQuantity
    grandTotal := round2 grandTotal
    averagePrice := round2 averagePrice
    productCount := rows.length }

/-- `getAllTotals` of `src/src/lib/store.ts` (lines 121-123): totals over
the whole `db`, regardless of any filter. -/
def getAllTotals (s : Store) : ProductTotals := getTotals s.db

/-- Store-threaded `getProducts`: the source copies the array
(`let rows = [...db]`), sorts only the copy and writes neither `db` nor
any entity field, so the store it leaves behind is the one it was given. -/
def getProductsS (params : GetProductsParams) (s : Store) :
    GetProductsResult × Store :=
  (getProducts params s, { db := s.db })

/-- Store-threaded `getTotals`: the reductions only read the rows. -/
def getTotalsS (rows : List Product) (s : Store) : ProductTotals × Store :=
  (getTotals rows, { db := s.db })

/-- `ApiParams` of `src/src/lib/api-utils.ts`: what `parseApiParams`
produces (its `searchTerm` is always a string, defaulting to `""`). -/
structure ApiParams where
  page : ℕ
  pageSize : ℕ
  sort : SortField
  sortDir : SortDir
  searchTerm : String
  searchField : Option SortField
deriving DecidableEq

/-- `PaginationParams` of `src/src/types/index.ts`. -/
structure PaginationParams where
  page : ℕ
  limit : ℕ
  total : ℕ
  totalPages : ℤ
  hasNext : Bool
  hasPrev : Bool
deriving DecidableEq

/-- `TableDataResponse` of `src/src/lib/api-utils.ts`. -/
structure TableDataResponse where
  data : List Product
  total : ℕ
  totals : ProductTotals
  pagination : PaginationParams
deriving DecidableEq

/-- `Math.ceil(n / m)` on non-negative integer operands. -/
def jsCeilDiv (n m : ℕ) : ℤ := ⌈(n : ℚ) / (m : ℚ)⌉

/-- The argument `getTableData` passes to `getProducts`
(`api-utils.ts` lines 44-51): `subtotal` is rewritten to `price`, the
search field defaults to `name`, and an empty search term becomes
`undefined` (`params.searchTerm || undefined`). -/
def apiQuery (params : ApiParams) : GetProductsParams :=
  { page := params.page
    pageSize := params.pageSize
    sort := if params.sort = .subtotal then .price else params.sort
    sortDir := params.sortDir
    searchField := some (params.searchField.getD .name)
    searchTerm := if params.searchTerm = "" then none else some params.searchTerm }

/-- `getTableData` of `src/src/lib/api-utils.ts` (lines 43-71): run the
query, attach `getAllTotals()` and the pagination metadata
`totalPages = Math.ceil(total / pageSize)`, `hasNext = page < totalPages`,
`hasPrev = page > 1`. -/
def getTableData (params : ApiParams) (s : Store) : TableDataResponse :=
  let r := getProducts (apiQuery params) s
  let totals := getAllTotals s
  let totalPages : ℤ := jsCeilDiv r.total params.pageSize
  { data := r.data
    total := r.total
    totals := totals
    pagination :=
      { page := params.page
        limit := params.pageSize
        total := r.total
        totalPages := totalPages
        hasNext := decide ((params.page : ℤ) < totalPages)
        hasPrev := decide (1 < params.page) } }

/-- Issues reported by `ValidationService.validatePrice`
(`src/src/lib/validation.ts` lines 18-53). -/
inductive PriceIssue
  | nan
  | tooLow
  | tooHigh
  | sentinel
deriving DecidableEq

/-- Issues reported by `ValidationService.validateQuantity`
(`validation.ts` lines 55-89). -/
inductive QuantityIssue
  | nan
  | negative
  | tooBig
  | notWhole
deriving DecidableEq

/-- `ValidationService.validatePrice` on a numeric value (`none` = NaN):
the `else if` chain reports at most one issue, the `99.99` sentinel being
tested only after the NaN and `[0.01, 999999.99]` bound checks pass. -/
def validatePrice (v : Option ℚ) : List PriceIssue :=
  match v with
  | none => [.nan]
  | some price =>
    if price < 0.01 then [.tooLow]
    else if price > 999999.99 then [.tooHigh]
    else if price = 99.99 then [.sentinel]
    else []

/-- `ValidationService.validateQuantity` on a numeric value (`none` =
NaN): NaN, negativity, the `9999` upper bound, then `Number.isInteger`
(a rational is a JS integer exactly when its denominator is 1). -/
def validateQuantity (v : Option ℚ) : List QuantityIssue :=
  match v with
  | none => [.nan]
  | some q =>
    if q < 0 then [.negative]
    else if q > 9999 then [.tooBig]
    else if q.den ≠ 1 then [.notWhole]
    else []

/-- `ValidationService.sanitizePrice` (`validation.ts` lines 169-175):
`null` on invalid input, otherwise `Math.round(price * 100) / 100`. -/
def sanitizePrice (v : Option ℚ) : Option ℚ :=
  if validatePrice v ≠ [] then none
  else v.map round2

/-- `ValidationService.sanitizeQuantity` (`validation.ts` lines 177-183):
`null` on invalid input, otherwise the value unchanged (the string-parsing
branch does not apply to numeric input). -/
def sanitizeQuantity (v : Option ℚ) : Option ℚ :=
  if validateQuantity v ≠ [] then none
  else v

/-- `isValidProduct` of `src/src/lib/type-guards.ts` restricted to a
well-typed entity: the `typeof` checks hold by typing, leaving
`price >= 0 && quantity >= 0`. -/
def isValidProduct (p : Product) : Bool :=
  decide (0 ≤ p.price) && decide (0 ≤ p.quantity)

/-- The two editable fields of `updateProductField`. -/
inductive UpdField
  | price
  | quantity
deriving DecidableEq

/-- Failures of `updateProductField` (each `throw` site of
`store.ts` lines 129-157). -/
inductive StoreErr
  | notFound
  | priceOutOfRange
  | quantityOutOfRange
  | invalidAfterUpdate
deriving DecidableEq

/-- Replace the first entity with the given id — the effect of mutating
the object found by `db.find(...)` in place. -/
def updFirst (l : List Product) (id : ℚ) (p' : Product) : List Product :=
  match l with
  | [] => []
  | q :: t => if q.id = id then p' :: t else q :: updFirst t id p'

/-- `getProductById` of `src/src/lib/store.ts` (lines 125-127). -/
def findById (s : Store) (id : ℚ) : Option Product :=
  s.db.find? (fun p => decide (p.id = id))

/-- `updateProductField` of `src/src/lib/store.ts` (lines 129-157):
look the entity up, bound-check the raw value against the
`VALIDATION_RULES` of `src/src/lib/config.ts` (price `[0, 999999.99]`,
quantity `[0, 999999]`), write the field (quantity through
`Math.max(0, Math.floor(value))`), then re-check `isValidProduct`.
The final check runs after the write, so its failure leaves the mutated
store behind. -/
def updateProductField (id : ℚ) (field : UpdField) (value : ℚ) (s : Store) :
    Except StoreErr Product × Store :=
  match s.db.find? (fun p => decide (p.id = id)) with
  | none => (.error .notFound, s)
  | some p =>
    match field with
    | .price =>
      if value < 0 ∨ value > 999999.99 then (.error .priceOutOfRange, s)
      else
        let p' : Product := { p with price := value }
        let s' : Store := ⟨updFirst s.db id p'⟩
        if isValidProduct p' then (.ok p', s') else (.error .invalidAfterUpdate, s')
    | .quantity =>
      if value < 0 ∨ value > 999999 then (.error .quantityOutOfRange, s)
      else
        let p' : Product := { p with quantity := max 0 (⌊value⌋ : ℚ) }
        let s' : Store := ⟨updFirst s.db id p'⟩
        if isValidProduct p' then (.ok p', s') else (.error .invalidAfterUpdate, s')

/-- The error taxonomy of the field-update endpoint (spec section 7). -/
inductive MutationError
  | notFound
  | validationError
  | simulatedServerError
  | serverError
deriving DecidableEq

/-- Modelled from the spec: the field-update route handler
(`/src/pages/api/products/[id]/...`) is not under `src/`; per the spec's
Mutation Service contract it validates the raw value with the
`ValidationService` first (reporting the sentinel as a simulated server
failure only when the basic numeric validation passes, which is how the
`else if` chain of `validatePrice` orders its checks), sanitizes the
value, and only then applies the write through `updateProductField`. -/
def updateField (id : ℚ) (field : UpdField) (raw : Option ℚ) (s : Store) :
    Except MutationError Product × Store :=
  match field with
  | .price =>
    match validatePrice raw with
    | [] =>
      match sanitizePrice raw with
      | none => (.error .validationError, s)
      | some v =>
        match updateProductField id .price v s with
        | (.ok p, s') => (.ok p, s')
        | (.error .notFound, s') => (.error .notFound, s')
        | (.error _, s') => (.error .serverError, s')
    | issues =>
      if issues = [PriceIssue.sentinel] then (.error .simulatedServerError, s)
      else (.error .validationError, s)
  | .quantity =>
    match validateQuantity raw with
    | [] =>
      match sanitizeQuantity raw with
      | none => (.error .validationError, s)
      | some v =>
        match updateProductField id .quantity v s with
        | (.ok p, s') => (.ok p, s')
        | (.error .notFound, s') => (.error .notFound, s')
        | (.error _, s') => (.error .serverError, s')
    | _ =>
      (.error .validationError, s)

/-- Store invariant maintained by seeding and by every successful write:
all stored entities have non-negative price and quantity. -/
def WellFormed (s : Store) : Prop :=
  ∀ p ∈ s.db, 0 ≤ p.price ∧ 0 ≤ p.quantity

instance (s : Store) : Decidable (WellFormed s) :=
  inferInstanceAs (Decidable (∀ p ∈ s.db, _ ∧ _))

/-- The order on optional sort keys that the comparator realises in
ascending direction: `undefined` below every defined value, defined
values by their own order. -/
def optLe {κ : Type} [LinearOrder κ] : Option κ → Option κ → Prop
  | none, _ => True
  | some _, none => False
  | some x, some y => x ≤ y

/-- Whether the sort-key value the comparator would extract for this
field is `undefined`. -/
def keyIsNone (f : SortField) (p : Product) : Bool :=
  if isStrField f then (strKey f p).isNone else (numKey f p).isNone

/-- Relative placement of undefined-key rows demanded of a sorted output:
ascending puts them all first, descending puts them all last. -/
def noneRel (f : SortField) (dir : SortDir) (a b : Product) : Prop :=
  match dir with
  | .asc => keyIsNone f b = true → keyIsNone f a = true
  | .desc => keyIsNone f a = true → keyIsNone f b = true

/-- Ordering on the computed subtotal `price * quantity` in the requested
direction. -/
def subtotalLe (dir : SortDir) (a b : Product) : Prop :=
  match dir with
  | .asc => a.price * a.quantity ≤ b.price * b.quantity
  | .desc => b.price * b.quantity ≤ a.price * a.quantity

/-- All sort-key values of the given field are pairwise distinct on the
list. -/
def distinctKeys (f : SortField) (l : List Product) : Prop :=
  if isStrField f then (l.map (strKey f)).Nodup else (l.map (numKey f)).Nodup

instance (f : SortField) (l : List Product) : Decidable (distinctKeys f l) := by
  unfold distinctKeys
  split <;> exact List.nodupDecidable _

/-- Lower bound of the closed validation range of each editable field
(`ValidationService`). -/
def lowBound : UpdField → ℚ
  | .price => 0.01
  | .quantity => 0

/-- Upper bound of the closed validation range of each editable field
(`ValidationService`). -/
def highBound : UpdField → ℚ
  | .price => 999999.99
  | .quantity => 9999

/-- Concrete entity used in counterexamples: name `"Alpha"`, category
`"Gear"`. -/
def prodA : Product :=
  { id := 1, name := "Alpha", price := 10, quantity := 2, category := "Gear"
    description := none, createdAt := none, updatedAt := none }

/-- Concrete entity used in counterexamples: name `"Beta"`, category
`"Alp Gear"`. -/
def prodB : Product :=
  { id := 2, name := "Beta", price := 30, quantity := 4, category := "Alp Gear"
    description := none, createdAt := none, updatedAt := none }

/-- Two-entity store used in counterexamples and witnesses. -/
def storeAB : Store := ⟨[prodA, prodB]⟩

/-- Concrete entity with a defined `description`. -/
def prodD : Product :=
  { id := 1, name := "Ad", price := 1, quantity := 1, category := "C"
    description := some "zeta", createdAt := none, updatedAt := none }

/-- Concrete entity with an undefined `description`. -/
def prodU : Product :=
  { id := 2, name := "Bd", price := 1, quantity := 1, category := "C"
    description := none, createdAt := none, updatedAt := none }

/-- Store mixing defined and undefined `description` values. -/
def storeDU : Store := ⟨[prodD, prodU]⟩

/-- Concrete entity with low price but large subtotal (10 × 100 = 1000). -/
def prodS1 : Product :=
  { id := 1, name := "S1", price := 10, quantity := 100, category := "C"
    description := none, createdAt := none, updatedAt := none }

/-- Concrete entity with high price but small subtotal (20 × 1 = 20). -/
def prodS2 : Product :=
  { id := 2, name := "S2", price := 20, quantity := 1, category := "C"
    description := none, createdAt := none, updatedAt := none }

/-- Store on which price order and subtotal order disagree. -/
def storeS : Store := ⟨[prodS1, prodS2]⟩

/-- Concrete entity of the mutation-witness store. -/
def prodW : Product :=
  { id := 1, name := "Widget", price := 10, quantity := 5
    category := "Electronics", description := none, createdAt := none
    updatedAt := none }

/-- One-entity store used in mutation witnesses. -/
def storeW : Store := ⟨[prodW]⟩

theorem cmpVals_asc_le {κ : Type} [LinearOrder κ] (a b : Option κ) :
    cmpVals .asc a b ≤ 0 ↔ optLe a b := by
  cases a with
  | none => cases b <;> simp [cmpVals, optLe]
  | some x =>
    cases b with
    | none => simp [cmpVals, optLe]
    | some y =>
      rcases lt_trichotomy x y with h | h | h
      · simp [cmpVals, optLe, h, h.le]
      · subst h
        simp [cmpVals, optLe, lt_irrefl]
      · simp [cmpVals, optLe, lt_asymm h, h, not_le_of_lt h]

theorem cmpVals_desc_le {κ : Type} [LinearOrder κ] (a b : Option κ) :
    cmpVals .desc a b ≤ 0 ↔ optLe b a := by
  cases a with
  | none => cases b <;> simp [cmpVals, optLe]
  | some x =>
    cases b with
    | none => simp [cmpVals, optLe]
    | some y =>
      rcases lt_trichotomy x y with h | h | h
      · simp [cmpVals, optLe, h, not_le_of_lt h, lt_asymm h]
      · subst h
        simp [cmpVals, optLe, lt_irrefl]
      · simp [cmpVals, optLe, lt_asymm h, h, h.le]

theorem optLe_total {κ : Type} [LinearOrder κ] (a b : Option κ) :
    optLe a b ∨ optLe b a := by
  cases a <;> cases b <;> simp [optLe, le_total]

theorem optLe_trans {κ : Type} [LinearOrder κ] {a b c : Option κ}
    (h₁ : optLe a b) (h₂ : optLe b c) : optLe a c := by
  cases a <;> cases b <;> cases c <;> simp_all [optLe]
  exact h₁.trans h₂

theorem optLe_antisymm {κ : Type} [LinearOrder κ] {a b : Option κ}
    (h₁ : optLe a b) (h₂ : optLe b a) : a = b := by
  cases a <;> cases b <;> simp_all [optLe]
  exact le_antisymm h₁ h₂

theorem keyLe_asc_iff {κ : Type} [LinearOrder κ] (key : Product → Option κ)
    (a b : Product) : keyLe .asc key a b ↔ optLe (key a) (key b) :=
  cmpVals_asc_le _ _

theorem keyLe_desc_iff {κ : Type} [LinearOrder κ] (key : Product → Option κ)
    (a b : Product) : keyLe .desc key a b ↔ optLe (key b) (key a) :=
  cmpVals_desc_le _ _

theorem keyLe_isTotal {κ : Type} [LinearOrder κ] (dir : SortDir)
    (key : Product → Option κ) : IsTotal Product (keyLe dir key) := by
  constructor
  intro a b
  cases dir
  · rw [keyLe_asc_iff, keyLe_asc_iff]
    exact optLe_total _ _
  · rw [keyLe_desc_iff, keyLe_desc_iff]
    exact (optLe_total _ _).symm

theorem keyLe_isTrans {κ : Type} [LinearOrder κ] (dir : SortDir)
    (key : Product → Option κ) : IsTrans Product (keyLe dir key) := by
  constructor
  intro a b c hab hbc
  cases dir
  · rw [keyLe_asc_iff] at *
    exact optLe_trans hab hbc
  · rw [keyLe_desc_iff] at *
    exact optLe_trans hbc hab

theorem sorted_insertionSort_keyLe {κ : Type} [LinearOrder κ] (dir : SortDir)
    (key : Product → Option κ) (l : List Product) :
    List.Sorted (keyLe dir key) (List.insertionSort (keyLe dir key) l) := by
  haveI := keyLe_isTotal dir key
  haveI := keyLe_isTrans dir key
  exact List.sorted_insertionSort _ _

theorem sortRows_perm (dir : SortDir) (f : SortField) (l : List Product) :
    (sortRows dir f l).Perm l := by
  unfold sortRows
  split
  · exact List.perm_insertionSort _ _
  · exact List.perm_insertionSort _ _

theorem sortRows_length (dir : SortDir) (f : SortField) (l : List Product) :
    (sortRows dir f l).length = l.length :=
  (sortRows_perm dir f l).length_eq

/-- Two lists that are permutations of one another, both pairwise ordered
by a relation that is antisymmetric on the members involved, coincide. -/
theorem eq_of_perm_of_pairwise {α : Type} {r : α → α → Prop} :
    ∀ {l₁ l₂ : List α}, l₁.Perm l₂ → l₁.Pairwise r → l₂.Pairwise r →
      (∀ a ∈ l₁, ∀ b ∈ l₁, r a b → r b a → a = b) → l₁ = l₂ := by
  intro l₁
  induction l₁ with
  | nil =>
    intro l₂ hp _ _ _
    exact (hp.symm.eq_nil).symm
  | cons a t ih =>
    intro l₂ hp hs₁ hs₂ ha
    cases l₂ with
    | nil => exact absurd hp.eq_nil (by simp)
    | cons b t₂ =>
      have hmem_b : b ∈ a :: t := hp.symm.subset (List.mem_cons_self b t₂)
      have hmem_a : a ∈ b :: t₂ := hp.subset (List.mem_cons_self a t)
      have hab : a = b := by
        by_contra hne
        have hb' : b ∈ t := by
          rcases List.mem_cons.mp hmem_b with h | h
          · exact absurd h.symm hne
          · exact h
        have ha' : a ∈ t₂ := by
          rcases List.mem_cons.mp hmem_a with h | h
          · exact absurd h hne
          · exact h
        have rab : r a b := (List.pairwise_cons.mp hs₁).1 b hb'
        have rba : r b a := (List.pairwise_cons.mp hs₂).1 a ha'
        exact hne (ha a (List.mem_cons_self a t) b hmem_b rab rba)
      subst hab
      have hp' := hp.cons_inv
      have ht : t = t₂ :=
        ih hp' (List.pairwise_cons.mp hs₁).2 (List.pairwise_cons.mp hs₂).2
          (fun x hx y hy => ha x (List.mem_cons_of_mem _ hx) y (List.mem_cons_of_mem _ hy))
      rw [ht]

/-- With pairwise-distinct keys the descending insertion sort is exactly
the reversed ascending one. -/
theorem insertionSort_desc_eq_reverse {κ : Type} [LinearOrder κ]
    (key : Product → Option κ) (l : List Product)
    (hnd : (l.map key).Nodup) :
    List.insertionSort (keyLe .desc key) l =
      (List.insertionSort (keyLe .asc key) l).reverse := by
  have hperm₁ : (List.insertionSort (keyLe .desc key) l).Perm l :=
    List.perm_insertionSort _ _
  have hperm₂ : ((List.insertionSort (keyLe .asc key) l).reverse).Perm l :=
    ((List.insertionSort (keyLe .asc key) l).reverse_perm).trans
      (List.perm_insertionSort _ _)
  have hs₁ : (List.insertionSort (keyLe .desc key) l).Pairwise (keyLe .desc key) :=
    sorted_insertionSort_keyLe .desc key l
  have hs₂ : ((List.insertionSort (keyLe .asc key) l).reverse).Pairwise (keyLe .desc key) := by
    rw [List.pairwise_reverse]
    refine (sorted_insertionSort_keyLe .asc key l).imp ?_
    intro a b h
    rw [keyLe_asc_iff] at h
    rw [keyLe_desc_iff]
    exact h
  refine eq_of_perm_of_pairwise (hperm₁.trans hperm₂.symm) hs₁ hs₂ ?_
  intro a hma b hmb h₁ h₂
  rw [keyLe_desc_iff] at h₁ h₂
  have hk : key a = key b := optLe_antisymm h₂ h₁
  exact List.inj_on_of_nodup_map hnd (hperm₁.subset hma) (hperm₁.subset hmb) hk

/-- On page 1 with a page size that covers the whole filtered set, the
returned data is the entire sorted filtered set. -/
theorem getProducts_data_fullPage (params : GetProductsParams) (s : Store)
    (hpage : params.page = 1)
    (hfull : (filterRows params.searchField params.searchTerm s.db).length ≤
      params.pageSize) :
    (getProducts params s).data =
      sortRows params.sortDir params.sort
        (filterRows params.searchField params.searchTerm s.db) := by
  unfold getProducts
  simp only [hpage]
  rw [Nat.sub_self, Nat.zero_mul, List.drop_zero]
  exact List.take_of_length_le (by rw [sortRows_length]; exact hfull)

/-- The data of any page is a sublist of the sorted filtered set. -/
theorem getProducts_data_sublist (params : GetProductsParams) (s : Store) :
    (getProducts params s).data.Sublist
      (sortRows params.sortDir params.sort
        (filterRows params.searchField params.searchTerm s.db)) := by
  unfold getProducts
  exact (List.take_sublist _ _).trans (List.drop_sublist _ _)

/-- C10: the read operations `getProducts` and `getTotals` never modify
the record store: for every parameter choice the stored collection —
membership, order and every entity's fields — is the same before and
after the call (the source sorts a copy `[...db]` and only reads
entities). -/
theorem c10_reads_preserve_store :
    ∀ (params : GetProductsParams) (rows : List Product) (s : Store),
      (getProductsS params s).2 = s ∧ (getTotalsS rows s).2 = s := by
  intro params rows s
  cases s
  exact ⟨rfl, rfl⟩

/-- C2 counterexample: with search term `"Alpha"` only one of the two
stored entities matches the filter, yet the totals attached to the
response are those of the whole store (`getAllTotals`), not of the
filtered set. -/
theorem c2_counterexample :
    (getTableData
        { page := 1, pageSize := 10, sort := .id, sortDir := .asc
          searchTerm := "Alpha", searchField := some .name } storeAB).totals ≠
      getTotals (storeAB.db.filter (nameMatches "Alpha")) ∧
    (getTableData
        { page := 1, pageSize := 10, sort := .id, sortDir := .asc
          searchTerm := "Alpha", searchField := some .name } storeAB).totals.productCount = 2 ∧
    (storeAB.db.filter (nameMatches "Alpha")).length = 1 := by
  refine ⟨?_, by decide, by decide⟩
  intro h
  have h2 : (getTableData
      { page := 1, pageSize := 10, sort := .id, sortDir := .asc
        searchTerm := "Alpha", searchField := some .name } storeAB).totals.productCount =
      (getTotals (storeAB.db.filter (nameMatches "Alpha"))).productCount := by rw [h]
  revert h2
  decide

/-- C2 (amended): the `AggregateTotals` attached to every response are
computed over the **entire record store** (`getAllTotals`), not over the
filtered set; consequently they are identical for every page, page size,
sort and search parameter over the same store. -/
theorem c2_totals_over_whole_store :
    ∀ (params : ApiParams) (s : Store),
      (getTableData params s).totals = getTotals s.db ∧
      ∀ params' : ApiParams,
        (getTableData params s).totals = (getTableData params' s).totals := by
  intro params s
  exact ⟨rfl, fun _ => rfl⟩

/-- C1 counterexample: querying with `searchField = category` and term
`"Alp"` returns exactly the row whose *name* contains the term, although
its `category` (`"Gear"`) does not contain the term while the excluded
row's `category` (`"Alp Gear"`) does — the filter never consults the
search field's value. -/
theorem c1_counterexample :
    (getProducts
        { page := 1, pageSize := 10, sort := .id, sortDir := .asc
          searchField := some .category, searchTerm := some "Alp" } storeAB).data =
      [prodA] ∧
    jsIncludes (jsToLower prodA.category) (jsToLower "Alp") = false ∧
    jsIncludes (jsToLower prodB.category) (jsToLower "Alp") = true := by
  decide

/-- C1 (amended): with an empty search term (or absent search field) the
full-page query returns exactly the unfiltered store (order aside); with
a present search field and a non-empty term it returns exactly the subset
of entities whose **name** contains the term case-insensitively,
whatever the search field is. -/
theorem c1_filtering (params : GetProductsParams) (s : Store)
    (hpage : params.page = 1) (hfull : s.db.length ≤ params.pageSize) :
    ((params.searchTerm = none ∨ params.searchTerm = some "" ∨
        params.searchField = none) →
      (getProducts params s).data.Perm s.db) ∧
    (∀ t : String, params.searchTerm = some t → t ≠ "" →
      params.searchField ≠ none →
      (getProducts params s).data.Perm (s.db.filter (nameMatches t))) := by
  have hlen : (filterRows params.searchField params.searchTerm s.db).length ≤
      params.pageSize := by
    refine le_trans ?_ hfull
    unfold filterRows
    split
    · split
      · exact le_rfl
      · exact List.length_filter_le _ _
    · exact le_rfl
  have hdata := getProducts_data_fullPage params s hpage hlen
  constructor
  · intro hcase
    have hrows : filterRows params.searchField params.searchTerm s.db = s.db := by
      rcases hcase with h | h | h
      · rw [h]
        unfold filterRows
        cases params.searchField <;> rfl
      · rw [h]
        unfold filterRows
        cases params.searchField <;> rfl
      · rw [h]
        unfold filterRows
        cases params.searchTerm <;> rfl
    rw [hdata, hrows]
    exact sortRows_perm _ _ _
  · intro t ht hne hsf
    have hrows : filterRows params.searchField params.searchTerm s.db =
        s.db.filter (nameMatches t) := by
      unfold filterRows
      rw [ht]
      cases hf : params.searchField with
      | none => exact absurd hf hsf
      | some f => simp [hne]
    rw [hdata, hrows]
    exact sortRows_perm _ _ _

theorem optLe_none_imp {κ : Type} [LinearOrder κ] {a b : Option κ}
    (h : optLe a b) (hb : b.isNone = true) : a.isNone = true := by
  cases a with
  | none => rfl
  | some x =>
    cases b with
    | none => exact absurd h (by simp [optLe])
    | some y => simp at hb

theorem noneRel_of_keyLe {κ : Type} [LinearOrder κ] (f : SortField)
    (dir : SortDir) (key : Product → Option κ)
    (hkey : ∀ p, keyIsNone f p = (key p).isNone) {a b : Product}
    (h : keyLe dir key a b) : noneRel f dir a b := by
  cases dir
  · intro hb
    rw [hkey] at *
    exact optLe_none_imp ((keyLe_asc_iff key a b).mp h) hb
  · intro ha
    rw [hkey] at *
    exact optLe_none_imp ((keyLe_desc_iff key a b).mp h) ha

/-- `sortRows` on a string-valued field is the insertion sort over the
string-key comparator. -/
theorem sortRows_str (dir : SortDir) (f : SortField) (hf : isStrField f = true)
    (l : List Product) :
    sortRows dir f l = List.insertionSort (keyLe dir (strKey f)) l := by
  unfold sortRows
  rw [hf]
  rfl

/-- `sortRows` on a number-valued field is the insertion sort over the
numeric-key comparator. -/
theorem sortRows_num (dir : SortDir) (f : SortField) (hf : isStrField f = false)
    (l : List Product) :
    sortRows dir f l = List.insertionSort (keyLe dir (numKey f)) l := by
  unfold sortRows
  rw [hf]
  rfl

theorem pairwise_noneRel_sortRows (dir : SortDir) (f : SortField)
    (l : List Product) : (sortRows dir f l).Pairwise (noneRel f dir) := by
  cases hf : isStrField f with
  | true =>
    rw [sortRows_str dir f hf]
    refine (sorted_insertionSort_keyLe dir (strKey f) l).imp ?_
    intro a b h
    exact noneRel_of_keyLe f dir (strKey f) (fun p => by simp [keyIsNone, hf]) h
  | false =>
    rw [sortRows_num dir f hf]
    refine (sorted_insertionSort_keyLe dir (numKey f) l).imp ?_
    intro a b h
    exact noneRel_of_keyLe f dir (numKey f) (fun p => by simp [keyIsNone, hf]) h

/-- C6 counterexample: sorting by `description` **descending**, the row
with a defined description is placed before the row with an undefined
one — undefined values are not placed first irrespective of direction. -/
theorem c6_counterexample :
    (getProducts
        { page := 1, pageSize := 10, sort := .description, sortDir := .desc
          searchField := none, searchTerm := none } storeDU).data = [prodD, prodU] ∧
    prodD.description.isSome = true ∧ prodU.description = none := by
  decide

/-- C6 (amended): in every sorted query result, rows whose sort-key value
is `undefined` are all placed before defined-key rows when `sortDir` is
`asc`, and all placed after them when `sortDir` is `desc` — the
comparator treats `undefined` as smaller than any defined value and the
direction flip applies to these comparisons as well. -/
theorem c6_undefined_rows_direction :
    ∀ (params : GetProductsParams) (s : Store),
      (getProducts params s).data.Pairwise (noneRel params.sort params.sortDir) := by
  intro params s
  exact List.Pairwise.sublist (getProducts_data_sublist params s)
    (pairwise_noneRel_sortRows params.sortDir params.sort _)

theorem subtotalLe_of_keyLe (dir : SortDir) (a b : Product)
    (h : keyLe dir (numKey .subtotal) a b) : subtotalLe dir a b := by
  cases dir
  · have := (keyLe_asc_iff (numKey .subtotal) a b).mp h
    simpa [numKey, optLe, subtotalLe] using this
  · have := (keyLe_desc_iff (numKey .subtotal) a b).mp h
    simpa [numKey, optLe, subtotalLe] using this

/-- C7 counterexample: requesting `sortBy = subtotal` ascending through
the query endpoint returns the rows in price order, with the first row's
subtotal (10 × 100 = 1000) strictly greater than the second's
(20 × 1 = 20). -/
theorem c7_counterexample :
    (getTableData
        { page := 1, pageSize := 10, sort := .subtotal, sortDir := .asc
          searchTerm := "", searchField := none } storeS).data = [prodS1, prodS2] ∧
    prodS2.price * prodS2.quantity < prodS1.price * prodS1.quantity := by
  decide

/-- C7 (amended): the Query Engine itself (`getProducts`) supports the
computed pseudo-field `subtotal` — its result rows are ordered by
`price * quantity` in the requested direction, the subtotal never being a
stored entity field — but the HTTP layer (`getTableData`) rewrites
`sortBy = subtotal` to `price`, so end to end the response is ordered by
price, not by subtotal. -/
theorem c7_subtotal_sort :
    (∀ (params : GetProductsParams) (s : Store), params.sort = .subtotal →
      (getProducts params s).data.Pairwise (subtotalLe params.sortDir)) ∧
    (∀ (params : ApiParams) (s : Store), params.sort = .subtotal →
      getTableData params s = getTableData { params with sort := .price } s) := by
  constructor
  · intro params s hsort
    have hsub := getProducts_data_sublist params s
    rw [hsort] at hsub
    refine List.Pairwise.sublist hsub ?_
    rw [sortRows_num params.sortDir .subtotal rfl]
    refine (sorted_insertionSort_keyLe params.sortDir (numKey .subtotal) _).imp ?_
    intro a b h
    exact subtotalLe_of_keyLe params.sortDir a b h
  · intro params s hsort
    have happ : apiQuery params = apiQuery { params with sort := SortField.price } := by
      unfold apiQuery
      rw [hsort]
      simp
    simp [getTableData, happ]

/-- C7 witness: a concrete subtotal-sorted query satisfies both parts of
the amended statement. -/
theorem c7_witness :
    (getProducts
        { page := 1, pageSize := 10, sort := .subtotal, sortDir := .asc
          searchField := none, searchTerm := none } storeS).data.Pairwise
      (subtotalLe .asc) ∧
    getTableData
        { page := 1, pageSize := 10, sort := .subtotal, sortDir := .asc
          searchTerm := "", searchField := none } storeS =
      getTableData
        { page := 1, pageSize := 10, sort := SortField.price, sortDir := .asc
          searchTerm := "", searchField := none } storeS :=
  ⟨c7_subtotal_sort.1
      { page := 1, pageSize := 10, sort := .subtotal, sortDir := .asc
        searchField := none, searchTerm := none } storeS rfl,
    c7_subtotal_sort.2
      { page := 1, pageSize := 10, sort := .subtotal, sortDir := .asc
        searchTerm := "", searchField := none } storeS rfl⟩

/-- C9: for every sort field, on a store whose sort-key values for that
field are pairwise distinct, querying the full set descending returns
exactly the reverse of querying it ascending. -/
theorem c9_sort_reversal (s : Store) (f : SortField)
    (hnd : distinctKeys f s.db) :
    (getProducts
        { page := 1, pageSize := s.db.length, sort := f, sortDir := .desc
          searchField := none, searchTerm := none } s).data =
      ((getProducts
        { page := 1, pageSize := s.db.length, sort := f, sortDir := .asc
          searchField := none, searchTerm := none } s).data).reverse := by
  have hflt : filterRows none none s.db = s.db := rfl
  have h₁ := getProducts_data_fullPage
    { page := 1, pageSize := s.db.length, sort := f, sortDir := .desc
      searchField := none, searchTerm := none } s rfl (by rw [hflt])
  have h₂ := getProducts_data_fullPage
    { page := 1, pageSize := s.db.length, sort := f, sortDir := .asc
      searchField := none, searchTerm := none } s rfl (by rw [hflt])
  simp only at h₁ h₂
  rw [h₁, h₂, hflt]
  unfold distinctKeys at hnd
  cases hf : isStrField f with
  | true =>
    rw [sortRows_str .desc f hf, sortRows_str .asc f hf]
    rw [hf] at hnd
    exact insertionSort_desc_eq_reverse (strKey f) s.db (by simpa using hnd)
  | false =>
    rw [sortRows_num .desc f hf, sortRows_num .asc f hf]
    rw [hf] at hnd
    exact insertionSort_desc_eq_reverse (numKey f) s.db (by simpa using hnd)

/-- C9 witness: on the two-entity store the price keys are distinct and
the descending full query is the reverse of the ascending one. -/
theorem c9_witness :
    distinctKeys SortField.price storeAB.db ∧
    (getProducts
        { page := 1, pageSize := storeAB.db.length, sort := .price
          sortDir := .desc, searchField := none, searchTerm := none } storeAB).data =
      ((getProducts
        { page := 1, pageSize := storeAB.db.length, sort := .price
          sortDir := .asc, searchField := none, searchTerm := none } storeAB).data).reverse :=
  ⟨by decide, c9_sort_reversal storeAB .price (by decide)⟩

theorem round2_nonneg {q : ℚ} (h : 0 ≤ q) : 0 ≤ round2 q := by
  unfold round2
  have hfl : (0 : ℤ) ≤ ⌊q * 100 + 1 / 2⌋ := Int.floor_nonneg.mpr (by linarith)
  have : (0 : ℚ) ≤ (⌊q * 100 + 1 / 2⌋ : ℚ) := by exact_mod_cast hfl
  linarith

theorem round2_mono {a b : ℚ} (h : a ≤ b) : round2 a ≤ round2 b := by
  unfold round2
  have hfl : ⌊a * 100 + 1 / 2⌋ ≤ ⌊b * 100 + 1 / 2⌋ :=
    Int.floor_le_floor (by linarith)
  have : ((⌊a * 100 + 1 / 2⌋ : ℤ) : ℚ) ≤ ((⌊b * 100 + 1 / 2⌋ : ℤ) : ℚ) := by
    exact_mod_cast hfl
  linarith

theorem round2_le_max {q : ℚ} (h : q ≤ 999999.99) : round2 q ≤ 999999.99 := by
  have h1 : round2 q ≤ round2 999999.99 := round2_mono h
  have h2 : round2 (999999.99 : ℚ) = 999999.99 := by decide
  rw [h2] at h1
  exact h1

theorem validatePrice_ok {q : ℚ} (h1 : 0.01 ≤ q) (h2 : q ≤ 999999.99)
    (h3 : q ≠ 99.99) : validatePrice (some q) = [] := by
  simp only [validatePrice]
  rw [if_neg (not_lt.mpr h1), if_neg (not_lt.mpr h2), if_neg h3]

theorem validatePrice_eq_nil {v : Option ℚ} (h : validatePrice v = []) :
    ∃ q, v = some q ∧ 0.01 ≤ q ∧ q ≤ 999999.99 ∧ q ≠ 99.99 := by
  cases v with
  | none => exact absurd h (by simp [validatePrice])
  | some q =>
    refine ⟨q, rfl, ?_⟩
    simp only [validatePrice] at h
    split_ifs at h with ha hb hc
    exact ⟨not_lt.mp ha, not_lt.mp hb, hc⟩

theorem validatePrice_eq_sentinel {v : Option ℚ}
    (h : validatePrice v = [PriceIssue.sentinel]) :
    ∃ q, v = some q ∧ ¬ q < 0.01 ∧ ¬ q > 999999.99 := by
  cases v with
  | none => exact absurd h (by simp [validatePrice])
  | some q =>
    refine ⟨q, rfl, ?_⟩
    simp only [validatePrice] at h
    split_ifs at h with ha hb hc
    · exact absurd h (by simp)
    · exact absurd h (by simp)
    · exact ⟨ha, hb⟩

theorem validateQuantity_eq_nil {v : Option ℚ} (h : validateQuantity v = []) :
    ∃ q, v = some q ∧ 0 ≤ q ∧ q ≤ 9999 := by
  cases v with
  | none => exact absurd h (by simp [validateQuantity])
  | some q =>
    refine ⟨q, rfl, ?_⟩
    simp only [validateQuantity] at h
    split_ifs at h with ha hb hc
    exact ⟨not_lt.mp ha, not_lt.mp hb⟩

theorem sanitizePrice_of_valid {q : ℚ} (h : validatePrice (some q) = []) :
    sanitizePrice (some q) = some (round2 q) := by
  unfold sanitizePrice
  rw [if_neg (by rw [h]; simp)]
  rfl

theorem sanitizeQuantity_of_valid {q : ℚ} (h : validateQuantity (some q) = []) :
    sanitizeQuantity (some q) = some q := by
  unfold sanitizeQuantity
  rw [if_neg (by rw [h]; simp)]

/-- Under the store invariant and a non-negative written value,
`updateProductField` either leaves the store untouched or succeeds: the
post-write `isValidProduct` re-check cannot fire. -/
theorem updateProductField_frame_or_ok (id : ℚ) (f : UpdField) (value : ℚ)
    (s : Store) (hwf : WellFormed s) (hv : 0 ≤ value) :
    (updateProductField id f value s).2 = s ∨
      ∃ p, (updateProductField id f value s).1 = .ok p := by
  unfold updateProductField
  cases hfind : s.db.find? (fun p => decide (p.id = id)) with
  | none => exact Or.inl rfl
  | some p =>
    have hp := hwf p (List.mem_of_find?_eq_some hfind)
    cases f with
    | price =>
      dsimp only
      by_cases hb : value < 0 ∨ value > 999999.99
      · rw [if_pos hb]
        exact Or.inl rfl
      · rw [if_neg hb]
        have hvalid : isValidProduct { p with price := value } = true := by
          simp only [isValidProduct, Bool.and_eq_true, decide_eq_true_eq]
          exact ⟨hv, hp.2⟩
        rw [if_pos hvalid]
        exact Or.inr ⟨_, rfl⟩
    | quantity =>
      dsimp only
      by_cases hb : value < 0 ∨ value > 999999
      · rw [if_pos hb]
        exact Or.inl rfl
      · rw [if_neg hb]
        have hvalid : isValidProduct { p with quantity := max 0 (⌊value⌋ : ℚ) } = true := by
          simp only [isValidProduct, Bool.and_eq_true, decide_eq_true_eq]
          exact ⟨hp.1, le_max_left _ _⟩
        rw [if_pos hvalid]
        exact Or.inr ⟨_, rfl⟩

/-- Successful price write: the found entity's price is replaced and the
updated entity is returned. -/
theorem updateProductField_price_ok (id : ℚ) (value : ℚ) (s : Store)
    (p : Product) (hfind : s.db.find? (fun x => decide (x.id = id)) = some p)
    (h0 : 0 ≤ value) (hhi : value ≤ 999999.99) (hq : 0 ≤ p.quantity) :
    updateProductField id .price value s =
      (.ok { p with price := value },
        ⟨updFirst s.db id { p with price := value }⟩) := by
  unfold updateProductField
  rw [hfind]
  dsimp only
  have hb : ¬ (value < 0 ∨ value > 999999.99) := by
    push_neg
    exact ⟨h0, hhi⟩
  rw [if_neg hb]
  have hvalid : isValidProduct { p with price := value } = true := by
    simp only [isValidProduct, Bool.and_eq_true, decide_eq_true_eq]
    exact ⟨h0, hq⟩
  rw [if_pos hvalid]

theorem find?_updFirst (id : ℚ) (p' : Product) (hp' : p'.id = id) :
    ∀ (l : List Product) (p : Product),
      l.find? (fun x => decide (x.id = id)) = some p →
      (updFirst l id p').find? (fun x => decide (x.id = id)) = some p' := by
  intro l
  induction l with
  | nil =>
    intro p h
    simp at h
  | cons a t ih =>
    intro p h
    by_cases ha : a.id = id
    · simp only [updFirst]
      rw [if_pos ha]
      exact List.find?_cons_of_pos _ (by simp [hp'])
    · simp only [updFirst]
      rw [if_neg ha]
      rw [List.find?_cons_of_neg _ (by simp [ha])] at h
      rw [List.find?_cons_of_neg _ (by simp [ha])]
      exact ih p h

/-- C3: for every store and entity id present in it, `updateField` with
the sentinel price `99.99` fails with the simulated server error (leaving
the store unchanged), and a simulated server failure can only arise for a
value that already passed the basic numeric validation — it is non-NaN
and within the price bounds. -/
theorem c3_sentinel_price (s : Store) (id : ℚ)
    (hid : (findById s id).isSome = true) :
    updateField id .price (some (99.99 : ℚ)) s =
      (.error .simulatedServerError, s) ∧
    ∀ v : Option ℚ,
      (updateField id .price v s).1 = .error .simulatedServerError →
      ∃ q : ℚ, v = some q ∧ ¬ q < 0.01 ∧ ¬ q > 999999.99 := by
  constructor
  · have hv : validatePrice (some (99.99 : ℚ)) = [PriceIssue.sentinel] := by decide
    simp only [updateField, hv]
    rfl
  · intro v h
    cases hval : validatePrice v with
    | nil =>
      exfalso
      rcases validatePrice_eq_nil hval with ⟨q, rfl, hq1, hq2, hq3⟩
      simp only [updateField, hval, sanitizePrice_of_valid hval] at h
      rcases hupd : updateProductField id .price (round2 q) s with ⟨r, s'⟩
      rw [hupd] at h
      cases r with
      | ok p => simp at h
      | error se => cases se <;> simp at h
    | cons i rest =>
      by_cases hsent : (i :: rest) = [PriceIssue.sentinel]
      · rw [hsent] at hval
        exact validatePrice_eq_sentinel hval
      · exfalso
        simp only [updateField, hval] at h
        rw [if_neg hsent] at h
        simp at h

/-- C3 witness: on a concrete one-entity store the sentinel write fails
as a simulated server error. -/
theorem c3_witness :
    (findById storeW 1).isSome = true ∧
    (updateField 1 .price (some (99.99 : ℚ)) storeW =
        (.error .simulatedServerError, storeW) ∧
      ∀ v : Option ℚ,
        (updateField 1 .price v storeW).1 = .error .simulatedServerError →
        ∃ q : ℚ, v = some q ∧ ¬ q < 0.01 ∧ ¬ q > 999999.99) :=
  ⟨by decide, c3_sentinel_price storeW 1 (by decide)⟩

/-- C4: on a well-formed store with the entity present, `updateField`
fails with a `ValidationError` whenever the value is NaN or outside the
field's closed validation bound, and every failing `updateField` — for
any reason — leaves the store (hence the target entity) unchanged. -/
theorem c4_validation_and_frame (s : Store) (hwf : WellFormed s) (id : ℚ)
    (hid : (findById s id).isSome = true) :
    (∀ (f : UpdField) (v : Option ℚ),
      (v = none ∨ ∃ q, v = some q ∧ (q < lowBound f ∨ highBound f < q)) →
      updateField id f v s = (.error .validationError, s)) ∧
    (∀ (f : UpdField) (v : Option ℚ) (e : MutationError),
      (updateField id f v s).1 = .error e →
      (updateField id f v s).2 = s) := by
  constructor
  · intro f v hv
    cases f with
    | price =>
      rcases hv with rfl | ⟨q, rfl, hq⟩
      · have hval : validatePrice none = [PriceIssue.nan] := rfl
        simp only [updateField, hval]
        rw [if_neg (by decide)]
      · have hval : validatePrice (some q) = [PriceIssue.tooLow] ∨
            validatePrice (some q) = [PriceIssue.tooHigh] := by
          rcases hq with h | h
          · left
            have h' : q < 0.01 := by simpa [lowBound] using h
            simp only [validatePrice]
            rw [if_pos h']
          · right
            have h' : q > 999999.99 := by simpa [highBound] using h
            simp only [validatePrice]
            rw [if_neg (not_lt.mpr (by linarith)), if_pos h']
        rcases hval with h | h
        · simp only [updateField, h]
          rw [if_neg (by decide)]
        · simp only [updateField, h]
          rw [if_neg (by decide)]
    | quantity =>
      rcases hv with rfl | ⟨q, rfl, hq⟩
      · have hval : validateQuantity none = [QuantityIssue.nan] := rfl
        simp only [updateField, hval]
      · have hval : validateQuantity (some q) = [QuantityIssue.negative] ∨
            validateQuantity (some q) = [QuantityIssue.tooBig] := by
          rcases hq with h | h
          · left
            have h' : q < 0 := by simpa [lowBound] using h
            simp only [validateQuantity]
            rw [if_pos h']
          · right
            have h' : q > 9999 := by simpa [highBound] using h
            simp only [validateQuantity]
            rw [if_neg (not_lt.mpr (by linarith)), if_pos h']
        rcases hval with h | h
        · simp only [updateField, h]
        · simp only [updateField, h]
  · intro f v e h
    cases f with
    | price =>
      cases hval : validatePrice v with
      | nil =>
        rcases validatePrice_eq_nil hval with ⟨q, rfl, hq1, hq2, hq3⟩
        simp only [updateField, hval, sanitizePrice_of_valid hval] at h ⊢
        have hframe := updateProductField_frame_or_ok id .price (round2 q) s hwf
          (round2_nonneg (by linarith))
        set u := updateProductField id .price (round2 q) s with hu
        rcases u with ⟨r, s'⟩
        cases r with
        | ok p => simp at h
        | error se =>
          have hs' : s' = s := by
            rcases hframe with h2 | ⟨p, hp⟩
            · exact h2
            · simp at hp
          cases se <;> simpa using hs'
      | cons i rest =>
        simp only [updateField, hval] at h ⊢
        by_cases hsent : (i :: rest) = [PriceIssue.sentinel]
        · rw [if_pos hsent]
        · rw [if_neg hsent]
    | quantity =>
      cases hval : validateQuantity v with
      | nil =>
        rcases validateQuantity_eq_nil hval with ⟨q, rfl, hq1, hq2⟩
        simp only [updateField, hval, sanitizeQuantity_of_valid hval] at h ⊢
        have hframe := updateProductField_frame_or_ok id .quantity q s hwf hq1
        set u := updateProductField id .quantity q s with hu
        rcases u with ⟨r, s'⟩
        cases r with
        | ok p => simp at h
        | error se =>
          have hs' : s' = s := by
            rcases hframe with h2 | ⟨p, hp⟩
            · exact h2
            · simp at hp
          cases se <;> simpa using hs'
      | cons i rest =>
        simp only [updateField, hval] at h ⊢

/-- C4 witness: the concrete out-of-bound and NaN writes fail with a
validation error and leave the concrete store unchanged. -/
theorem c4_witness :
    WellFormed storeW ∧ (findById storeW 1).isSome = true ∧
    ((∀ (f : UpdField) (v : Option ℚ),
        (v = none ∨ ∃ q, v = some q ∧ (q < lowBound f ∨ highBound f < q)) →
        updateField 1 f v storeW = (.error .validationError, storeW)) ∧
      (∀ (f : UpdField) (v : Option ℚ) (e : MutationError),
        (updateField 1 f v storeW).1 = .error e →
        (updateField 1 f v storeW).2 = storeW)) :=
  ⟨by decide, by decide, c4_validation_and_frame storeW (by decide) 1 (by decide)⟩

/-- C5: on a well-formed store with the entity present, every price in
the validation range `[0.01, 999999.99]` other than the sentinel is
accepted, and the stored price afterwards is the value rounded to two
decimal places. -/
theorem c5_price_roundtrip (s : Store) (hwf : WellFormed s) (id : ℚ)
    (p : Product) (hfind : findById s id = some p) (q : ℚ)
    (h1 : 0.01 ≤ q) (h2 : q ≤ 999999.99) (h3 : q ≠ 99.99) :
    ∃ p', (updateField id .price (some q) s).1 = .ok p' ∧
      findById (updateField id .price (some q) s).2 id = some p' ∧
      p'.price = round2 q := by
  have hval := validatePrice_ok h1 h2 h3
  have hsan := sanitizePrice_of_valid hval
  have hfind' : s.db.find? (fun x => decide (x.id = id)) = some p := hfind
  have h0 : 0 ≤ round2 q := round2_nonneg (by linarith)
  have hhi : round2 q ≤ 999999.99 := round2_le_max h2
  have hq0 : 0 ≤ p.quantity := (hwf p (List.mem_of_find?_eq_some hfind')).2
  have hupd := updateProductField_price_ok id (round2 q) s p hfind' h0 hhi hq0
  refine ⟨{ p with price := round2 q }, ?_, ?_, rfl⟩
  · simp only [updateField, hval, hsan, hupd]
  · simp only [updateField, hval, hsan, hupd]
    have hpid : ({ p with price := round2 q } : Product).id = id := by
      have := List.find?_some hfind'
      simpa using this
    exact find?_updFirst id _ hpid s.db p hfind'

/-- C5 witness: writing the concrete price 12.345 succeeds and stores
12.35. -/
theorem c5_witness :
    WellFormed storeW ∧ findById storeW 1 = some prodW ∧
    (0.01 : ℚ) ≤ 12.345 ∧ (12.345 : ℚ) ≤ 999999.99 ∧ (12.345 : ℚ) ≠ 99.99 ∧
    ∃ p', (updateField 1 .price (some (12.345 : ℚ)) storeW).1 = .ok p' ∧
      findById (updateField 1 .price (some (12.345 : ℚ)) storeW).2 1 = some p' ∧
      p'.price = round2 (12.345 : ℚ) :=
  ⟨by decide, by decide, by decide, by decide, by decide,
    c5_price_roundtrip storeW (by decide) 1 prodW (by decide) 12.345
      (by decide) (by decide) (by decide)⟩

/-- C1 witness: on the concrete store the full-page query with term
`"Alpha"` returns exactly the name-filtered subset. -/
theorem c1_witness :
    (getProducts
        { page := 1, pageSize := 10, sort := .id, sortDir := .asc
          searchField := some .name, searchTerm := some "Alpha" } storeAB).data.Perm
      (storeAB.db.filter (nameMatches "Alpha")) :=
  (c1_filtering
      { page := 1, pageSize := 10, sort := .id, sortDir := .asc
        searchField := some .name, searchTerm := some "Alpha" } storeAB rfl
      (by decide)).2 "Alpha" rfl (by decide) (by decide)

/-- C8: for every query with `pageSize ≥ 1`, `page ≥ 1` and a non-empty
filtered set of size `N = total`: `totalPages = ⌈N / pageSize⌉`; a page
beyond `totalPages` returns zero rows (not an error) while `total` still
reports `N`; the last page holds `N - pageSize * (totalPages - 1)` rows;
`hasNext ↔ page < totalPages`; `hasPrev ↔ page > 1`. -/
theorem c8_pagination (params : ApiParams) (s : Store)
    (hS : 1 ≤ params.pageSize) (hp : 1 ≤ params.page)
    (hN : 1 ≤ (getTableData params s).total) :
    (getTableData params s).pagination.totalPages =
      jsCeilDiv (getTableData params s).total params.pageSize ∧
    ((getTableData params s).pagination.totalPages < (params.page : ℤ) →
      (getTableData params s).data = []) ∧
    (((params.page : ℤ) = (getTableData params s).pagination.totalPages) →
      ((getTableData params s).data.length : ℤ) =
        ((getTableData params s).total : ℤ) -
          (params.pageSize : ℤ) *
            ((getTableData params s).pagination.totalPages - 1)) ∧
    ((getTableData params s).pagination.hasNext = true ↔
      (params.page : ℤ) < (getTableData params s).pagination.totalPages) ∧
    ((getTableData params s).pagination.hasPrev = true ↔ 1 < params.page) := by
  have hS0 : (0 : ℚ) < (params.pageSize : ℚ) := by exact_mod_cast hS
  have htotal : (getTableData params s).total =
      (getProducts (apiQuery params) s).total := rfl
  have hdata : (getTableData params s).data =
      ((sortRows (apiQuery params).sortDir (apiQuery params).sort
          (filterRows (apiQuery params).searchField (apiQuery params).searchTerm
            s.db)).drop ((params.page - 1) * params.pageSize)).take
        params.pageSize := rfl
  have hlen : (getProducts (apiQuery params) s).total =
      (sortRows (apiQuery params).sortDir (apiQuery params).sort
        (filterRows (apiQuery params).searchField (apiQuery params).searchTerm
          s.db)).length := rfl
  have htp : (getTableData params s).pagination.totalPages =
      jsCeilDiv (getTableData params s).total params.pageSize := rfl
  have hub : ((getTableData params s).total : ℤ) ≤
      jsCeilDiv (getTableData params s).total params.pageSize * params.pageSize := by
    have h1 : (((getTableData params s).total : ℚ) / (params.pageSize : ℚ)) ≤
        ((jsCeilDiv (getTableData params s).total params.pageSize : ℤ) : ℚ) :=
      Int.le_ceil _
    have h2 : (((getTableData params s).total : ℚ)) ≤
        ((jsCeilDiv (getTableData params s).total params.pageSize : ℤ) : ℚ) *
          (params.pageSize : ℚ) := (div_le_iff hS0).mp h1
    exact_mod_cast h2
  have hlb : (jsCeilDiv (getTableData params s).total params.pageSize - 1) *
      (params.pageSize : ℤ) < ((getTableData params s).total : ℤ) := by
    have h0 : jsCeilDiv (getTableData params s).total params.pageSize - 1 <
        jsCeilDiv (getTableData params s).total params.pageSize := by omega
    have h1 : ((jsCeilDiv (getTableData params s).total params.pageSize - 1 : ℤ) : ℚ) <
        ((getTableData params s).total : ℚ) / (params.pageSize : ℚ) :=
      Int.lt_ceil.mp h0
    have h2 : ((jsCeilDiv (getTableData params s).total params.pageSize - 1 : ℤ) : ℚ) *
        (params.pageSize : ℚ) < ((getTableData params s).total : ℚ) :=
      (lt_div_iff hS0).mp h1
    exact_mod_cast h2
  refine ⟨htp, ?_, ?_, ?_, ?_⟩
  · intro hbeyond
    rw [htp] at hbeyond
    have hTle : jsCeilDiv (getTableData params s).total params.pageSize ≤
        (params.page : ℤ) - 1 := by omega
    have h2 : ((getTableData params s).total : ℤ) ≤
        ((params.page : ℤ) - 1) * params.pageSize :=
      le_trans hub (mul_le_mul_of_nonneg_right hTle (by positivity))
    have h3 : (((params.page - 1) * params.pageSize : ℕ) : ℤ) =
        ((params.page : ℤ) - 1) * params.pageSize := by
      rw [Nat.cast_mul, Nat.cast_sub hp]
      norm_num
    have h4 : (getTableData params s).total ≤ (params.page - 1) * params.pageSize := by
      rw [← h3] at h2
      exact_mod_cast h2
    rw [hdata]
    rw [List.drop_eq_nil_of_le (by rw [← hlen, ← htotal]; exact h4)]
    exact List.take_nil
  · intro hlast
    rw [htp] at hlast
    rw [hdata, List.length_take, List.length_drop]
    have hcast : (((params.page - 1) * params.pageSize : ℕ) : ℤ) =
        (jsCeilDiv (getTableData params s).total params.pageSize - 1) *
          params.pageSize := by
      rw [Nat.cast_mul, Nat.cast_sub hp]
      rw [← hlast]
      norm_num
    rw [htp]
    have hlen' : (sortRows (apiQuery params).sortDir (apiQuery params).sort
        (filterRows (apiQuery params).searchField (apiQuery params).searchTerm
          s.db)).length = (getTableData params s).total := by
      rw [htotal, hlen]
    rw [hlen']
    have hcomm : (params.pageSize : ℤ) *
        (jsCeilDiv (getTableData params s).total params.pageSize - 1) =
        (jsCeilDiv (getTableData params s).total params.pageSize - 1) *
          (params.pageSize : ℤ) := by ring
    rw [hcomm]
    have hexp : (jsCeilDiv (getTableData params s).total params.pageSize - 1) *
        (params.pageSize : ℤ) =
        jsCeilDiv (getTableData params s).total params.pageSize *
          (params.pageSize : ℤ) - params.pageSize := by ring
    omega
  · have hnx : (getTableData params s).pagination.hasNext =
        decide ((params.page : ℤ) <
          (getTableData params s).pagination.totalPages) := rfl
    rw [hnx]
    exact decide_eq_true_iff
  · have hpv : (getTableData params s).pagination.hasPrev =
        decide (1 < params.page) := rfl
    rw [hpv]
    exact decide_eq_true_iff

/-- C8 witness: two entities, page size 1, page 2 (= the last page):
one row on the last page, `hasNext` false, `hasPrev` true, two total
pages. -/
theorem c8_witness :
    1 ≤ (1 : ℕ) ∧ 1 ≤ (2 : ℕ) ∧
    1 ≤ (getTableData
        { page := 2, pageSize := 1, sort := .id, sortDir := .asc
          searchTerm := "", searchField := none } storeAB).total ∧
    ((getTableData
        { page := 2, pageSize := 1, sort := .id, sortDir := .asc
          searchTerm := "", searchField := none } storeAB).pagination.totalPages =
      jsCeilDiv (getTableData
        { page := 2, pageSize := 1, sort := .id, sortDir := .asc
          searchTerm := "", searchField := none } storeAB).total 1 ∧
    ((getTableData
        { page := 2, pageSize := 1, sort := .id, sortDir := .asc
          searchTerm := "", searchField := none } storeAB).pagination.totalPages <
        ((2 : ℕ) : ℤ) →
      (getTableData
        { page := 2, pageSize := 1, sort := .id, sortDir := .asc
          searchTerm := "", searchField := none } storeAB).data = []) ∧
    ((((2 : ℕ) : ℤ) = (getTableData
        { page := 2, pageSize := 1, sort := .id, sortDir := .asc
          searchTerm := "", searchField := none } storeAB).pagination.totalPages) →
      ((getTableData
        { page := 2, pageSize := 1, sort := .id, sortDir := .asc
          searchTerm := "", searchField := none } storeAB).data.length : ℤ) =
        ((getTableData
          { page := 2, pageSize := 1, sort := .id, sortDir := .asc
            searchTerm := "", searchField := none } storeAB).total : ℤ) -
          ((1 : ℕ) : ℤ) *
            ((getTableData
              { page := 2, pageSize := 1, sort := .id, sortDir := .asc
                searchTerm := "", searchField := none } storeAB).pagination.totalPages - 1)) ∧
    ((getTableData
        { page := 2, pageSize := 1, sort := .id, sortDir := .asc
          searchTerm := "", searchField := none } storeAB).pagination.hasNext = true ↔
      ((2 : ℕ) : ℤ) < (getTableData
        { page := 2, pageSize := 1, sort := .id, sortDir := .asc
          searchTerm := "", searchField := none } storeAB).pagination.totalPages) ∧
    ((getTableData
        { page := 2, pageSize := 1, sort := .id, sortDir := .asc
          searchTerm := "", searchField := none } storeAB).pagination.hasPrev = true ↔
      1 < (2 : ℕ))) :=
  ⟨le_refl 1, by norm_num, by decide,
    c8_pagination
      { page := 2, pageSize := 1, sort := .id, sortDir := .asc
        searchTerm := "", searchField := none } storeAB (by decide) (by norm_num)
      (by decide)⟩

end PC
